import Mathlib

/-!
Lean model of the TransPal Gemini transcriber pipeline (src/index.ts and the
older variants in src/unnamed), together with theorems checking the
natural-language specification against the code.  JavaScript numbers are
modelled as rationals, JS objects and Maps as association lists in insertion
order, and the external inference service as an oracle function parameter.
-/

namespace TransPal

/-- A transcription item as produced by the model and accumulated in
`accumulatedResults.transcription` (src/index.ts lines 30-40): speaker label,
start and end times in seconds (chunk-relative when produced, absolute after
the merge), and the spoken text. -/
structure TranscriptionItem where
  speaker : String
  startTime : ℚ
  endTime : ℚ
  text : String
  deriving DecidableEq, Repr, Inhabited

/-- The accumulated aggregate threaded through the pipeline
(src/index.ts lines 30-40, `accumulatedResultsType`). -/
structure AccumulatedResults where
  title : String
  slug : String
  transcription : List TranscriptionItem
  summary : String
  deriving DecidableEq, Repr

/-! ### Timestamp re-basing and merge (src/index.ts lines 430-439) -/

/-- The spread `{ ...item, startTime: item.startTime + timeOffset,
endTime: item.endTime + timeOffset }` from src/index.ts lines 433-437. -/
def rebaseItem (timeOffset : ℚ) (item : TranscriptionItem) : TranscriptionItem :=
  { item with
      startTime := item.startTime + timeOffset
      endTime := item.endTime + timeOffset }

/-- One entry of `allChunkResults` (src/index.ts line 408):
the chunk index together with the chunk-relative transcription. -/
structure ChunkResult where
  index : ℕ
  transcription : List TranscriptionItem
  deriving DecidableEq, Repr

/-- The merge loop of src/index.ts lines 430-439: for each chunk result in
order, compute `timeOffset = chunkResult.index * segmentTime` and push every
item, re-based by that offset, onto the absolute transcript. -/
def mergeChunkResults (segmentTime : ℚ) : List ChunkResult → List TranscriptionItem
  | [] => []
  | r :: rs =>
      r.transcription.map (rebaseItem ((r.index : ℚ) * segmentTime))
        ++ mergeChunkResults segmentTime rs

/-! ### Known-speaker registry update (src/index.ts lines 410-418) -/

/-- Insertion-order de-duplication, the JS `[...new Set(xs)]`
of src/index.ts line 411. -/
def dedupKeepFirst (l : List String) : List String :=
  l.foldl (fun acc s => if s ∈ acc then acc else acc ++ [s]) []

/-- Structural prefix test on character lists, used to model
JS `String.prototype.startsWith`. -/
def charsPrefix : List Char → List Char → Bool
  | [], _ => true
  | _ :: _, [] => false
  | a :: as, b :: bs => a == b && charsPrefix as bs

/-- The JS call `s.startsWith(pre)`: `pre` is a prefix of `s`. -/
def jsStartsWith (s pre : String) : Bool :=
  charsPrefix pre.data s.data

/-- The body of the registry-update loop (src/index.ts lines 414-418):
`if (!knownSpeakers.some((ks) => ks.startsWith(s))) knownSpeakers.push(s)`. -/
def addSpeaker (knownSpeakers : List String) (s : String) : List String :=
  if knownSpeakers.any (fun ks => jsStartsWith ks s) then knownSpeakers
  else knownSpeakers ++ [s]

/-- The registry update for one chunk (src/index.ts lines 410-418):
de-duplicate the chunk speakers, then fold the guarded push over them. -/
def updateKnownSpeakers (knownSpeakers : List String) (chunkSpeakers : List String) :
    List String :=
  (dedupKeepFirst chunkSpeakers).foldl addSpeaker knownSpeakers

/-! ### Speaker mapping application (src/index.ts lines 353-357 and the
`normalizeSpeakers` apply step of src/unnamed/part_002 lines 166-170) -/

/-- A raw-code-to-canonical-name mapping, a JS string-keyed object in
insertion order. -/
abbrev SpeakerMapping := List (String × String)

/-- JS property lookup `m[k]` on a string-keyed object:
the first binding for the key, if any. -/
def assocGet (m : SpeakerMapping) (k : String) : Option String :=
  (m.find? (fun p => p.1 == k)).map (fun p => p.2)

/-- JS truthiness of `m[k]` for a string-or-undefined value:
`undefined` and the empty string are falsy. -/
def jsTruthy (o : Option String) : Bool :=
  match o with
  | none => false
  | some v => !(v == "")

/-- The JS expression `x || s` for a string-or-undefined `x`:
falls back to `s` when `x` is `undefined` or the empty string. -/
def jsOrElse (o : Option String) (s : String) : String :=
  match o with
  | none => s
  | some v => if v == "" then s else v

/-- The per-item apply step `{ ...item, speaker: mapping[item.speaker] ||
item.speaker }` (src/index.ts lines 354-357). -/
def resolveItem (m : SpeakerMapping) (item : TranscriptionItem) : TranscriptionItem :=
  { item with speaker := jsOrElse (assocGet m item.speaker) item.speaker }

/-- Applying a speaker mapping over a whole transcript
(src/index.ts lines 354-357, src/unnamed/part_002 lines 167-170). -/
def applyMapping (m : SpeakerMapping) (ts : List TranscriptionItem) :
    List TranscriptionItem :=
  ts.map (resolveItem m)

/-! ### Retry policy of `transcribeChunk` (src/index.ts lines 96-138,
src/unnamed/part_002 lines 90-132) -/

/-- Observable outcome of running the retry loop: the returned value or the
propagated error, the number of inference attempts issued, and the total
waiting time accumulated by `await delay(2000)` calls, in milliseconds. -/
structure RetryTrace (ε α : Type) where
  result : Except ε α
  attemptsMade : ℕ
  delayMs : ℕ

/-- The loop `let retries = 3; while (retries > 0) { try ... catch { retries--;
if (retries === 0) throw error; await delay(2000); } }` of src/index.ts lines
96-137.  `attempt k` is the outcome of the k-th external inference call
(the external service is an oracle).  `fallbackErr` is the
`throw new Error(...)` after the loop (line 138, dead code for positive
retry budgets). -/
def retryLoop {ε α : Type} (attempt : ℕ → Except ε α) (fallbackErr : ε) :
    ℕ → ℕ → RetryTrace ε α
  | _, 0 => ⟨Except.error fallbackErr, 0, 0⟩
  | idx, r + 1 =>
    match attempt idx with
    | Except.ok a => ⟨Except.ok a, 1, 0⟩
    | Except.error e =>
      if r = 0 then ⟨Except.error e, 1, 0⟩
      else
        let rest := retryLoop attempt fallbackErr (idx + 1) r
        ⟨rest.result, rest.attemptsMade + 1, rest.delayMs + 2000⟩

/-- The retry behaviour of `transcribeChunk`: the loop starts with
`retries = 3` (src/index.ts line 96). -/
def transcribeChunk {ε α : Type} (attempt : ℕ → Except ε α) (fallbackErr : ε) :
    RetryTrace ε α :=
  retryLoop attempt fallbackErr 0 3

/-! ### Incremental audio-sample speaker resolution
(`identifySpeakersWithAudio`, src/index.ts lines 198-363) -/

/-- A confirmed speaker sample: audio file path and reference text
(src/index.ts line 213). -/
structure Sample where
  path : String
  text : String
  deriving DecidableEq, Repr

/-- The mutable state of the identification loop: the running
`globalMapping` object and the `confirmedSpeakers` Map in insertion order
(src/index.ts lines 212-213). -/
structure ResolutionState where
  globalMapping : SpeakerMapping
  confirmedSpeakers : List (String × Sample)
  deriving DecidableEq, Repr

/-- JS object assignment `m[k] = v`: overwrite the binding if the key is
present, otherwise append it. -/
def assocSet (m : SpeakerMapping) (k v : String) : SpeakerMapping :=
  if m.any (fun p => p.1 == k) then
    m.map (fun p => if p.1 == k then (k, v) else p)
  else m ++ [(k, v)]

/-- `Map.prototype.get`-style lookup on the confirmed-speaker table. -/
def sampleGet (m : List (String × Sample)) (k : String) : Option Sample :=
  (m.find? (fun p => p.1 == k)).map (fun p => p.2)

/-- `confirmedSpeakers.has(k)` (src/index.ts line 341). -/
def sampleHas (m : List (String × Sample)) (k : String) : Bool :=
  m.any (fun p => p.1 == k)

/-- One iteration of the mapping-merge loop (src/index.ts lines 339-350):
`globalMapping[original] = mapped`, then, when `mapped` has no confirmed
sample yet and a new sample exists for `original`, record it
(`Map.set` appends since the key is absent). -/
def mergeWindowStep (newSamples : List (String × Sample)) (st : ResolutionState)
    (entry : String × String) : ResolutionState :=
  let st1 : ResolutionState :=
    { st with globalMapping := assocSet st.globalMapping entry.1 entry.2 }
  if sampleHas st1.confirmedSpeakers entry.2 then st1
  else
    match newSamples.find? (fun p => p.1 == entry.1) with
    | some p => { st1 with confirmedSpeakers := st1.confirmedSpeakers ++ [(entry.2, p.2)] }
    | none => st1

/-- The whole `for (const [original, mapped] of Object.entries(output.mapping))`
loop (src/index.ts lines 339-350), folding over the window mapping in
insertion order. -/
def mergeWindowMapping (st : ResolutionState) (windowMapping : SpeakerMapping)
    (newSamples : List (String × Sample)) : ResolutionState :=
  windowMapping.foldl (mergeWindowStep newSamples) st

/-- `const identificationChunkTime = 300` (src/index.ts line 205). -/
def identificationChunkTime : ℚ := 300

/-- The items of one identification window (src/index.ts lines 218-223):
items whose `startTime` lies in `[chunkIdx * 300, (chunkIdx + 1) * 300)`. -/
def windowItems (transcription : List TranscriptionItem) (chunkIdx : ℕ) :
    List TranscriptionItem :=
  transcription.filter (fun i =>
    decide ((chunkIdx : ℚ) * identificationChunkTime ≤ i.startTime) &&
    decide (i.startTime < ((chunkIdx : ℚ) + 1) * identificationChunkTime))

/-- The unknown-in-window codes (src/index.ts lines 228-231): the
de-duplicated window speakers whose `globalMapping` entry is JS-falsy
(absent or the empty string). -/
def unknownSpeakersIn (transcription : List TranscriptionItem) (chunkIdx : ℕ)
    (st : ResolutionState) : List String :=
  (dedupKeepFirst ((windowItems transcription chunkIdx).map (fun i => i.speaker))).filter
    (fun s => !(jsTruthy (assocGet st.globalMapping s)))

/-- The `reduce` picking the longest-duration utterance of a speaker in the
window (src/index.ts lines 248-252); the JS `reduce` without initial value
starts from the first element.  The `[]` case is unreachable at call sites. -/
def bestItemOf : List TranscriptionItem → TranscriptionItem
  | [] => default
  | h :: t =>
    t.foldl (fun prev curr =>
      if prev.endTime - prev.startTime < curr.endTime - curr.startTime then curr else prev) h

/-- The sample file name `sample_${speaker}_chunk${chunkIdx}.mp3`
(src/index.ts lines 254-257). -/
def sampleName (speaker : String) (chunkIdx : ℕ) : String :=
  "sample_" ++ speaker ++ "_chunk" ++ toString chunkIdx ++ ".mp3"

/-- The sample-extraction loop (src/index.ts lines 244-265): one extracted
audio sample and reference text per unknown speaker. -/
def newSamplesFor (transcription : List TranscriptionItem) (chunkIdx : ℕ)
    (unknownSpeakers : List String) : List (String × Sample) :=
  unknownSpeakers.map (fun speaker =>
    let speakerItems := (windowItems transcription chunkIdx).filter
      (fun i => i.speaker == speaker)
    (speaker, ⟨sampleName speaker chunkIdx, (bestItemOf speakerItems).text⟩))

/-- The external per-window resolution call (src/index.ts lines 314-336),
modelled as an oracle over what the request contains: the window index, the
confirmed reference samples, and the new samples to identify; it returns the
window mapping. -/
def Resolver : Type :=
  ℕ → List (String × Sample) → List (String × Sample) → SpeakerMapping

/-- The externally observable side effects of processing windows:
how many `extractAudioSegment` invocations and how many resolver
(`generateText`) calls were issued. -/
structure Effects where
  extractions : ℕ
  resolverCalls : ℕ
  deriving DecidableEq, Repr

/-- One iteration of the window loop (src/index.ts lines 217-351): skip the
window when it has no items or no unknown codes; otherwise extract one sample
per unknown code, issue one resolver call, and merge its mapping. -/
def processWindow (resolver : Resolver) (transcription : List TranscriptionItem)
    (chunkIdx : ℕ) (st : ResolutionState) : ResolutionState × Effects :=
  if (windowItems transcription chunkIdx).isEmpty then (st, ⟨0, 0⟩)
  else
    let unknownSpeakers := unknownSpeakersIn transcription chunkIdx st
    if unknownSpeakers.isEmpty then (st, ⟨0, 0⟩)
    else
      let newSamples := newSamplesFor transcription chunkIdx unknownSpeakers
      (mergeWindowMapping st (resolver chunkIdx st.confirmedSpeakers newSamples) newSamples,
       ⟨unknownSpeakers.length, 1⟩)

/-- Running the window loop from window `start` for `n` windows, threading the
state and summing the effects. -/
def runWindows (resolver : Resolver) (transcription : List TranscriptionItem) :
    ℕ → ℕ → ResolutionState → ResolutionState × Effects
  | _, 0, st => (st, ⟨0, 0⟩)
  | start, n + 1, st =>
    let r1 := processWindow resolver transcription start st
    let r2 := runWindows resolver transcription (start + 1) n r1.1
    (r2.1, ⟨r1.2.extractions + r2.2.extractions, r1.2.resolverCalls + r2.2.resolverCalls⟩)

/-- `identifySpeakersWithAudio` (src/index.ts lines 198-363): compute
`maxTime` as `Math.max(...endTimes, 0)`, derive the window count with
`Math.ceil`, run the window loop from an empty state, and apply the final
`globalMapping` over the whole transcript.  Besides the returned aggregate,
the model exposes the final resolution state and the issued effects. -/
def identifySpeakersWithAudio (resolver : Resolver) (acc : AccumulatedResults) :
    AccumulatedResults × ResolutionState × Effects :=
  let maxTime : ℚ := (acc.transcription.map (fun i => i.endTime)).foldr max 0
  let numChunks : ℕ := (Int.ceil (maxTime / identificationChunkTime)).toNat
  let r := runWindows resolver acc.transcription 0 numChunks ⟨[], []⟩
  ({ acc with transcription := applyMapping r.1.globalMapping acc.transcription },
   r.1, r.2)

/-! ### Title, summary, slug and the persisted artifact
(src/index.ts lines 468-573 and 652-655) -/

/-- The structured output of the title-and-summary call
(src/index.ts lines 479-491). -/
structure TitleSummaryOutput where
  title : String
  slug : String
  summary : String
  deriving DecidableEq, Repr

/-- `generateTitleAndSummary` (src/index.ts lines 468-511) with the external
call's structured output as an oracle parameter: the returned `title`, `slug`
and `summary` are copied verbatim into the aggregate. -/
def generateTitleAndSummary (output : TitleSummaryOutput)
    (acc : AccumulatedResults) : AccumulatedResults :=
  { acc with title := output.title, slug := output.slug, summary := output.summary }

/-- The `info` part of the persisted artifact (src/index.ts lines 531-538). -/
structure ArtifactInfo where
  filename : String
  name : String
  slug : String
  date : String
  description : String
  deriving DecidableEq, Repr

/-- One artifact content item (src/index.ts lines 539-546).  The source field
`end` is a Lean keyword and is modelled as `stop`; the random `id` field is
external nondeterminism and is not modelled. -/
structure ContentItem where
  start : ℚ
  stop : ℚ
  type : String
  speaker : String
  text : String
  deriving DecidableEq, Repr

/-- The persisted artifact shape (src/index.ts lines 531-547). -/
structure Artifact where
  info : ArtifactInfo
  content : List ContentItem
  deriving DecidableEq, Repr

/-- The fixed attribution suffix appended to the description
(src/index.ts line 537). -/
def attributionSuffix : String := "\n\n為 Gemini 轉錄，有錯誤歡迎留言分享"

/-- The success path of `processTranscription` (src/index.ts lines 527-547):
the aggregate is mapped field-for-field onto the artifact, the slug verbatim. -/
def processTranscription (response : AccumulatedResults) (fileName : String)
    (formattedDate : String) : Artifact :=
  { info :=
      { filename := fileName
        name := response.title
        slug := response.slug
        date := formattedDate
        description := response.summary ++ attributionSuffix }
    content := response.transcription.map (fun item =>
      { start := item.startTime
        stop := item.endTime
        type := "speech"
        speaker := item.speaker
        text := item.text }) }

/-- The output file name `path.flatten(outputDir, s!...slug...json)` of `main`
(src/index.ts line 654): the artifact slug plus the `.json` extension. -/
def artifactFileName (slug : String) : String := slug ++ ".json"

/-- Modelled from the spec: the slug output contract of section 4.5 —
lowercase letters, digits and hyphens only.  The implementation states this
constraint only inside the request schema description (src/index.ts lines
481-485); this predicate is the spec's checker for it. -/
def isValidSlugChar (c : Char) : Bool :=
  (decide ('a' ≤ c) && decide (c ≤ 'z')) ||
  (decide ('0' ≤ c) && decide (c ≤ '9')) || c == '-'

/-- Modelled from the spec: a slug meets the output contract when all its
characters do. -/
def isValidSlug (s : String) : Bool := s.data.all isValidSlugChar

/-! ## Supporting lemmas -/

/-- Membership characterization of the merged absolute transcript. -/
lemma mem_mergeChunkResults {seg : ℚ} {rs : List ChunkResult} {x : TranscriptionItem} :
    x ∈ mergeChunkResults seg rs ↔
      ∃ r ∈ rs, ∃ item ∈ r.transcription, x = rebaseItem ((r.index : ℚ) * seg) item := by
  induction rs with
  | nil => simp [mergeChunkResults]
  | cons a as ih =>
    simp only [mergeChunkResults, List.mem_append, List.mem_map, ih, List.mem_cons]
    constructor
    · rintro (⟨item, hitem, rfl⟩ | ⟨r, hr, item, hitem, rfl⟩)
      · exact ⟨a, Or.inl rfl, item, hitem, rfl⟩
      · exact ⟨r, Or.inr hr, item, hitem, rfl⟩
    · rintro ⟨r, hr | hr, item, hitem, rfl⟩
      · subst hr; exact Or.inl ⟨item, hitem, rfl⟩
      · exact Or.inr ⟨r, hr, item, hitem, rfl⟩

/-- The merged transcript is the concatenation, in chunk order, of the
per-chunk re-based item lists. -/
lemma mergeChunkResults_eq_join (seg : ℚ) (rs : List ChunkResult) :
    mergeChunkResults seg rs =
      (rs.map (fun r => r.transcription.map (rebaseItem ((r.index : ℚ) * seg)))).flatten := by
  induction rs with
  | nil => rfl
  | cons a as ih => simp [mergeChunkResults, ih]

/-- Resolving a speaker mapping never changes the start-time sequence. -/
lemma applyMapping_map_startTime (m : SpeakerMapping) (l : List TranscriptionItem) :
    (applyMapping m l).map (fun it => it.startTime) = l.map (fun it => it.startTime) := by
  simp only [applyMapping, List.map_map]
  rfl

/-- Applying a mapping in which every looked-up code maps to itself is the
identity on the transcript. -/
lemma applyMapping_id (m : SpeakerMapping) (ts : List TranscriptionItem)
    (h : ∀ item ∈ ts, ∀ v, assocGet m item.speaker = some v → v = item.speaker) :
    applyMapping m ts = ts := by
  induction ts with
  | nil => rfl
  | cons a as ih =>
    have hone : resolveItem m a = a := by
      have hsp : jsOrElse (assocGet m a.speaker) a.speaker = a.speaker := by
        cases hx : assocGet m a.speaker with
        | none => rfl
        | some v =>
          have hv : v = a.speaker := h a (List.mem_cons_self a as) v hx
          subst hv
          simp [jsOrElse]
      show { a with speaker := jsOrElse (assocGet m a.speaker) a.speaker } = a
      rw [hsp]
    have htail : applyMapping m as = as :=
      ih (fun item hit v hv => h item (List.mem_cons_of_mem a hit) v hv)
    calc applyMapping m (a :: as) = resolveItem m a :: applyMapping m as := rfl
      _ = a :: as := by rw [hone, htail]

/-! ## C1 -/

/-- C1: for every chunk index and every item the chunk produced with
chunk-relative times, the merge step appends to the absolute transcript an
item whose start and end times are the relative ones shifted by
index * segmentSeconds, with speaker and text unchanged
(src/index.ts lines 430-439). -/
theorem mergeChunkResults_rebases (segmentTime : ℚ) (rs : List ChunkResult)
    (r : ChunkResult) (item : TranscriptionItem)
    (hr : r ∈ rs) (hi : item ∈ r.transcription) :
    rebaseItem ((r.index : ℚ) * segmentTime) item ∈ mergeChunkResults segmentTime rs ∧
    (rebaseItem ((r.index : ℚ) * segmentTime) item).startTime
      = item.startTime + (r.index : ℚ) * segmentTime ∧
    (rebaseItem ((r.index : ℚ) * segmentTime) item).endTime
      = item.endTime + (r.index : ℚ) * segmentTime ∧
    (rebaseItem ((r.index : ℚ) * segmentTime) item).speaker = item.speaker ∧
    (rebaseItem ((r.index : ℚ) * segmentTime) item).text = item.text := by
  refine ⟨mem_mergeChunkResults.mpr ⟨r, hr, item, hi, rfl⟩, rfl, rfl, rfl, rfl⟩

/-- Evaluation of C1 on the spec's concrete scenario: chunk 1 of a 600-second
segmentation shifts a relative item at 0-40 s to 600-640 s. -/
theorem mergeChunkResults_rebases_witness :
    ((⟨1, [⟨"SPEAKER_01", 0, 40, "hi"⟩]⟩ : ChunkResult) ∈
        ([⟨1, [⟨"SPEAKER_01", 0, 40, "hi"⟩]⟩] : List ChunkResult) ∧
      (⟨"SPEAKER_01", 0, 40, "hi"⟩ : TranscriptionItem) ∈
        (⟨1, [⟨"SPEAKER_01", 0, 40, "hi"⟩]⟩ : ChunkResult).transcription) ∧
    (rebaseItem (((⟨1, [⟨"SPEAKER_01", 0, 40, "hi"⟩]⟩ : ChunkResult).index : ℚ) * 600)
        ⟨"SPEAKER_01", 0, 40, "hi"⟩ ∈
      mergeChunkResults 600 [⟨1, [⟨"SPEAKER_01", 0, 40, "hi"⟩]⟩] ∧
    (rebaseItem (((⟨1, [⟨"SPEAKER_01", 0, 40, "hi"⟩]⟩ : ChunkResult).index : ℚ) * 600)
        (⟨"SPEAKER_01", 0, 40, "hi"⟩ : TranscriptionItem)).startTime
      = (⟨"SPEAKER_01", 0, 40, "hi"⟩ : TranscriptionItem).startTime
          + ((⟨1, [⟨"SPEAKER_01", 0, 40, "hi"⟩]⟩ : ChunkResult).index : ℚ) * 600 ∧
    (rebaseItem (((⟨1, [⟨"SPEAKER_01", 0, 40, "hi"⟩]⟩ : ChunkResult).index : ℚ) * 600)
        (⟨"SPEAKER_01", 0, 40, "hi"⟩ : TranscriptionItem)).endTime
      = (⟨"SPEAKER_01", 0, 40, "hi"⟩ : TranscriptionItem).endTime
          + ((⟨1, [⟨"SPEAKER_01", 0, 40, "hi"⟩]⟩ : ChunkResult).index : ℚ) * 600 ∧
    (rebaseItem (((⟨1, [⟨"SPEAKER_01", 0, 40, "hi"⟩]⟩ : ChunkResult).index : ℚ) * 600)
        (⟨"SPEAKER_01", 0, 40, "hi"⟩ : TranscriptionItem)).speaker
      = (⟨"SPEAKER_01", 0, 40, "hi"⟩ : TranscriptionItem).speaker ∧
    (rebaseItem (((⟨1, [⟨"SPEAKER_01", 0, 40, "hi"⟩]⟩ : ChunkResult).index : ℚ) * 600)
        (⟨"SPEAKER_01", 0, 40, "hi"⟩ : TranscriptionItem)).text
      = (⟨"SPEAKER_01", 0, 40, "hi"⟩ : TranscriptionItem).text) :=
  ⟨⟨by decide, by decide⟩,
    mergeChunkResults_rebases 600 [⟨1, [⟨"SPEAKER_01", 0, 40, "hi"⟩]⟩]
      ⟨1, [⟨"SPEAKER_01", 0, 40, "hi"⟩]⟩ ⟨"SPEAKER_01", 0, 40, "hi"⟩
      (by decide) (by decide)⟩

/-! ## C3 -/

/-- C3 counterexample: with registry `["A"]` and observed code `"AB"`, the
existing entry `"A"` is a string-prefix of the observed code, so the claim
predicts the registry stays unchanged; the code adds the code anyway, because
its guard is `ks.startsWith(s)` (the observed code being a prefix of an
existing entry), not the other way round (src/index.ts line 415). -/
theorem updateKnownSpeakers_prefix_direction_cex :
    jsStartsWith "AB" "A" = true ∧
    updateKnownSpeakers ["A"] ["AB"] = ["A", "AB"] ∧
    updateKnownSpeakers ["A"] ["AB"] ≠ ["A"] := by decide

/-- C3 amended: a chunk-observed code is appended to the registry iff the
observed code is not a string-prefix of any existing registry entry
(equivalently, no existing entry starts with the observed code); otherwise
the registry is left unchanged for that code (src/index.ts lines 410-418). -/
theorem addSpeaker_prefix_guard (ks : List String) (s : String) :
    updateKnownSpeakers ks [s] = addSpeaker ks s ∧
    ((∀ k ∈ ks, jsStartsWith k s = false) → addSpeaker ks s = ks ++ [s]) ∧
    ((∃ k ∈ ks, jsStartsWith k s = true) → addSpeaker ks s = ks) := by
  refine ⟨rfl, ?_, ?_⟩
  · intro h
    have hany : ks.any (fun k => jsStartsWith k s) = false := by
      rw [List.any_eq_false]
      intro k hk
      simp [h k hk]
    simp [addSpeaker, hany]
  · rintro ⟨k, hk, hks⟩
    have hany : ks.any (fun k => jsStartsWith k s) = true :=
      List.any_eq_true.mpr ⟨k, hk, hks⟩
    simp [addSpeaker, hany]

/-- Evaluation of C3's amended statement: a decorated registry entry
`"SPEAKER_01: male host"` starts with the observed code `"SPEAKER_01"`, so the
code is not re-added. -/
theorem addSpeaker_prefix_guard_witness :
    (∃ k ∈ ["SPEAKER_01: male host"], jsStartsWith k "SPEAKER_01" = true) ∧
    addSpeaker ["SPEAKER_01: male host"] "SPEAKER_01" = ["SPEAKER_01: male host"] :=
  ⟨by decide, (addSpeaker_prefix_guard ["SPEAKER_01: male host"] "SPEAKER_01").2.2 (by decide)⟩

/-! ## C4 -/

/-- C4 counterexample: the apply step uses JS `||`, not `??`
(src/index.ts line 356).  With the mapping sending `"A"` to the empty string,
the claim predicts the resolved speaker is the empty string; the code keeps
`"A"`. -/
theorem applyMapping_empty_value_cex :
    assocGet [("A", "")] "A" = some "" ∧
    applyMapping [("A", "")] [⟨"A", 0, 1, "hi"⟩] = [⟨"A", 0, 1, "hi"⟩] ∧
    (applyMapping [("A", "")] [⟨"A", 0, 1, "hi"⟩]).map (fun i => i.speaker) ≠ [""] := by
  decide

/-- C4 amended: applying the final mapping computes
`item.speaker = mapping[item.speaker] || item.speaker`: when the item's code
is a key of the mapping with a non-empty value, the speaker becomes the
mapped value; when the mapped value is the empty string, or the code is
absent from the mapping, the speaker passes through unchanged
(src/index.ts lines 353-357, src/unnamed/part_002 lines 166-170). -/
theorem resolveItem_or_semantics (m : SpeakerMapping) (item : TranscriptionItem) :
    (assocGet m item.speaker = none → (resolveItem m item).speaker = item.speaker) ∧
    (assocGet m item.speaker = some "" → (resolveItem m item).speaker = item.speaker) ∧
    (∀ v, assocGet m item.speaker = some v → v ≠ "" →
      (resolveItem m item).speaker = v) := by
  refine ⟨?_, ?_, ?_⟩
  · intro h
    simp [resolveItem, jsOrElse, h]
  · intro h
    simp [resolveItem, jsOrElse, h]
  · intro v h hv
    simp only [resolveItem, jsOrElse, h]
    rw [if_neg (by simpa using hv)]

/-- Evaluation of C4's amended statement: a present, non-empty mapping value
replaces the speaker code. -/
theorem resolveItem_or_semantics_witness :
    assocGet [("A", "Alice")] "A" = some "Alice" ∧ ("Alice" : String) ≠ "" ∧
    (resolveItem [("A", "Alice")] ⟨"A", 0, 1, "hi"⟩).speaker = "Alice" :=
  ⟨by decide, by decide,
    (resolveItem_or_semantics [("A", "Alice")] ⟨"A", 0, 1, "hi"⟩).2.2 "Alice"
      (by decide) (by decide)⟩

/-! ## C8 -/

/-- C8: speaker resolution rewrites only the speaker field: the resolved
transcript has the same length and, position by position, identical start
time, end time and text; and when every code present in the mapping maps to
itself the resolved transcript equals the input transcript field-for-field
(src/index.ts lines 353-362, src/unnamed/part_002 lines 166-175). -/
theorem applyMapping_frame (m : SpeakerMapping) (ts : List TranscriptionItem) :
    (applyMapping m ts).length = ts.length ∧
    (∀ i : ℕ,
      ((applyMapping m ts)[i]?).map (fun it => it.startTime)
          = (ts[i]?).map (fun it => it.startTime) ∧
      ((applyMapping m ts)[i]?).map (fun it => it.endTime)
          = (ts[i]?).map (fun it => it.endTime) ∧
      ((applyMapping m ts)[i]?).map (fun it => it.text)
          = (ts[i]?).map (fun it => it.text)) ∧
    ((∀ item ∈ ts, ∀ v, assocGet m item.speaker = some v → v = item.speaker) →
      applyMapping m ts = ts) := by
  refine ⟨List.length_map ts (resolveItem m), ?_, applyMapping_id m ts⟩
  intro i
  refine ⟨?_, ?_, ?_⟩ <;>
    cases h : ts[i]? <;>
      simp [applyMapping, List.getElem?_map, h, resolveItem]

/-- Evaluation of C8 at an identity mapping over a one-item transcript. -/
theorem applyMapping_frame_witness :
    (∀ item ∈ ([⟨"A", 0, 1, "x"⟩] : List TranscriptionItem), ∀ v,
      assocGet [("A", "A")] item.speaker = some v → v = item.speaker) ∧
    applyMapping [("A", "A")] [⟨"A", 0, 1, "x"⟩] = [⟨"A", 0, 1, "x"⟩] := by
  have h : ∀ item ∈ ([⟨"A", 0, 1, "x"⟩] : List TranscriptionItem), ∀ v,
      assocGet [("A", "A")] item.speaker = some v → v = item.speaker := by
    intro item hit v hv
    rcases List.mem_singleton.mp hit with rfl
    have hx : assocGet [("A", "A")] ("A" : String) = some "A" := by decide
    rw [hx] at hv
    exact (Option.some.inj hv).symm
  exact ⟨h, (applyMapping_frame [("A", "A")] [⟨"A", 0, 1, "x"⟩]).2.2 h⟩

/-! ## C2 -/

/-- Case analysis of the three-attempt retry loop: the outcome of
`transcribeChunk` is determined by the first three oracle attempts. -/
lemma transcribeChunk_cases {ε α : Type} (attempt : ℕ → Except ε α) (fallbackErr : ε) :
    transcribeChunk attempt fallbackErr =
      match attempt 0 with
      | Except.ok a => ⟨Except.ok a, 1, 0⟩
      | Except.error _ =>
        match attempt 1 with
        | Except.ok a => ⟨Except.ok a, 2, 2000⟩
        | Except.error _ =>
          match attempt 2 with
          | Except.ok a => ⟨Except.ok a, 3, 4000⟩
          | Except.error e2 => ⟨Except.error e2, 3, 4000⟩ := by
  cases h0 : attempt 0 <;> cases h1 : attempt 1 <;> cases h2 : attempt 2 <;>
    simp [transcribeChunk, retryLoop, h0, h1, h2]

/-- C2: the retry loop of `transcribeChunk` makes at most 3 external attempts,
waiting 2000 ms between consecutive attempts; a failure pattern
ok / fail-ok / fail-fail-ok returns the successful transcription at attempt
1, 2 or 3; three failures propagate the error of the last (third) attempt
with no further attempts (src/index.ts lines 96-138). -/
theorem transcribeChunk_retry_policy {ε α : Type} (attempt : ℕ → Except ε α)
    (fallbackErr : ε) :
    (transcribeChunk attempt fallbackErr).attemptsMade ≤ 3 ∧
    (transcribeChunk attempt fallbackErr).delayMs
      = 2000 * ((transcribeChunk attempt fallbackErr).attemptsMade - 1) ∧
    (∀ v, attempt 0 = Except.ok v →
      (transcribeChunk attempt fallbackErr).result = Except.ok v ∧
      (transcribeChunk attempt fallbackErr).attemptsMade = 1) ∧
    (∀ e0 v, attempt 0 = Except.error e0 → attempt 1 = Except.ok v →
      (transcribeChunk attempt fallbackErr).result = Except.ok v ∧
      (transcribeChunk attempt fallbackErr).attemptsMade = 2) ∧
    (∀ e0 e1 v, attempt 0 = Except.error e0 → attempt 1 = Except.error e1 →
      attempt 2 = Except.ok v →
      (transcribeChunk attempt fallbackErr).result = Except.ok v ∧
      (transcribeChunk attempt fallbackErr).attemptsMade = 3) ∧
    (∀ e0 e1 e2, attempt 0 = Except.error e0 → attempt 1 = Except.error e1 →
      attempt 2 = Except.error e2 →
      (transcribeChunk attempt fallbackErr).result = Except.error e2 ∧
      (transcribeChunk attempt fallbackErr).attemptsMade = 3 ∧
      (transcribeChunk attempt fallbackErr).delayMs = 4000) := by
  cases h0 : attempt 0 <;> cases h1 : attempt 1 <;> cases h2 : attempt 2 <;>
    simp [transcribeChunk_cases attempt fallbackErr, h0, h1, h2]

/-- Evaluation of C2 on the fail-twice-then-succeed pattern: the successful
result of the third attempt is returned after exactly three attempts. -/
theorem transcribeChunk_retry_policy_witness :
    ((fun n => if n = 0 then (Except.error "e0" : Except String ℕ)
        else if n = 1 then Except.error "e1" else Except.ok 42) 0
      = Except.error "e0") ∧
    ((fun n => if n = 0 then (Except.error "e0" : Except String ℕ)
        else if n = 1 then Except.error "e1" else Except.ok 42) 1
      = Except.error "e1") ∧
    ((fun n => if n = 0 then (Except.error "e0" : Except String ℕ)
        else if n = 1 then Except.error "e1" else Except.ok 42) 2
      = Except.ok 42) ∧
    ((transcribeChunk
        (fun n => if n = 0 then (Except.error "e0" : Except String ℕ)
          else if n = 1 then Except.error "e1" else Except.ok 42) "fb").result
        = Except.ok 42 ∧
      (transcribeChunk
        (fun n => if n = 0 then (Except.error "e0" : Except String ℕ)
          else if n = 1 then Except.error "e1" else Except.ok 42) "fb").attemptsMade
        = 3) :=
  ⟨rfl, rfl, rfl,
    (transcribeChunk_retry_policy
        (fun n => if n = 0 then (Except.error "e0" : Except String ℕ)
          else if n = 1 then Except.error "e1" else Except.ok 42)
        "fb").2.2.2.2.1 "e0" "e1" 42 rfl rfl rfl⟩

/-! ## C5 -/

/-- Appending to the confirmed-speaker table preserves existing bindings. -/
lemma sampleGet_append (m l : List (String × Sample)) (k : String) (v : Sample)
    (h : sampleGet m k = some v) : sampleGet (m ++ l) k = some v := by
  induction m with
  | nil => simp [sampleGet] at h
  | cons p m' ih =>
    simp only [sampleGet, List.cons_append, List.find?] at h ⊢
    cases hp : (p.1 == k) with
    | true =>
      simp only [hp] at h ⊢
      exact h
    | false =>
      simp only [hp] at h ⊢
      exact ih h

/-- One mapping-merge step preserves existing confirmed samples: the step
only ever appends, and only when the canonical name has no sample yet. -/
lemma mergeWindowStep_preserves (ns : List (String × Sample)) (st : ResolutionState)
    (e : String × String) (k : String) (v : Sample)
    (h : sampleGet st.confirmedSpeakers k = some v) :
    sampleGet (mergeWindowStep ns st e).confirmedSpeakers k = some v := by
  simp only [mergeWindowStep]
  split <;>
    first
      | exact h
      | (split <;> first | exact h | exact sampleGet_append _ _ _ _ h)

/-- Merging a whole window mapping preserves existing confirmed samples. -/
lemma mergeWindowMapping_preserves (wm : SpeakerMapping) (st : ResolutionState)
    (ns : List (String × Sample)) (k : String) (v : Sample)
    (h : sampleGet st.confirmedSpeakers k = some v) :
    sampleGet (mergeWindowMapping st wm ns).confirmedSpeakers k = some v := by
  induction wm generalizing st with
  | nil => exact h
  | cons e wm' ih => exact ih _ (mergeWindowStep_preserves ns st e k v h)

/-- Processing one window preserves existing confirmed samples. -/
lemma processWindow_preserves (resolver : Resolver)
    (transcription : List TranscriptionItem) (chunkIdx : ℕ) (st : ResolutionState)
    (k : String) (v : Sample)
    (h : sampleGet st.confirmedSpeakers k = some v) :
    sampleGet (processWindow resolver transcription chunkIdx st).1.confirmedSpeakers k
      = some v := by
  simp only [processWindow]
  split <;>
    first
      | exact h
      | (split <;> first | exact h | exact mergeWindowMapping_preserves _ _ _ _ _ h)

/-- Running any number of windows preserves existing confirmed samples. -/
lemma runWindows_preserves (resolver : Resolver)
    (transcription : List TranscriptionItem) (start n : ℕ) (st : ResolutionState)
    (k : String) (v : Sample)
    (h : sampleGet st.confirmedSpeakers k = some v) :
    sampleGet (runWindows resolver transcription start n st).1.confirmedSpeakers k
      = some v := by
  induction n generalizing start st with
  | zero => exact h
  | succ n ih =>
    exact ih (start + 1) _ (processWindow_preserves resolver transcription start st k v h)

/-- C5: the confirmed-speaker-sample table is first-writer-wins per canonical
name: once a canonical name has a confirmed sample, processing any sequence
of later windows keeps that entry with the same audio path and reference
text, so the set of confirmed canonical names grows monotonically
(src/index.ts lines 338-350). -/
theorem confirmedSample_first_writer_wins (resolver : Resolver)
    (transcription : List TranscriptionItem) (start n : ℕ) (st : ResolutionState)
    (name : String) (sample : Sample)
    (h : sampleGet st.confirmedSpeakers name = some sample) :
    sampleGet (runWindows resolver transcription start n st).1.confirmedSpeakers name
      = some sample :=
  runWindows_preserves resolver transcription start n st name sample h

/-- Evaluation of C5: a sample confirmed for Alice survives two further
windows in which the resolver keeps answering. -/
theorem confirmedSample_first_writer_wins_witness :
    sampleGet (⟨[], [("Alice", ⟨"s.mp3", "hello"⟩)]⟩ : ResolutionState).confirmedSpeakers
        "Alice" = some ⟨"s.mp3", "hello"⟩ ∧
    sampleGet (runWindows (fun _ _ ns => ns.map (fun p => (p.1, "Alice"))) [] 0 2
        ⟨[], [("Alice", ⟨"s.mp3", "hello"⟩)]⟩).1.confirmedSpeakers "Alice"
      = some ⟨"s.mp3", "hello"⟩ :=
  ⟨rfl,
    confirmedSample_first_writer_wins (fun _ _ ns => ns.map (fun p => (p.1, "Alice")))
      [] 0 2 ⟨[], [("Alice", ⟨"s.mp3", "hello"⟩)]⟩ "Alice" ⟨"s.mp3", "hello"⟩ rfl⟩

/-! ## C6 -/

/-- A resolver oracle answering every unknown code with the empty string as
canonical name (schema-conforming output the code accepts). -/
def cexResolver : Resolver := fun _ _ ns => ns.map (fun p => (p.1, ""))

/-- A two-item transcript with the same code in identification windows
0 and 1. -/
def cexTranscript : List TranscriptionItem :=
  [⟨"A", 0, 1, "x"⟩, ⟨"A", 300, 301, "y"⟩]

/-- The state after processing window 0 of `cexTranscript`
with `cexResolver`. -/
def cexState1 : ResolutionState :=
  (processWindow cexResolver cexTranscript 0 ⟨[], []⟩).1

unseal Rat.add Rat.mul Rat.inv in
/-- C6 counterexample: after window 0, code `"A"` is a key of the running
global mapping, and every item of window 1 carries only that code; yet the
code issues one extraction and one resolver call for window 1, because its
unknown test is JS truthiness `!globalMapping[s]` (src/index.ts line 230),
which also treats a key mapped to the empty string as unknown — being a key
is not sufficient for the window to be skipped. -/
theorem processWindow_key_not_sufficient_cex :
    (assocGet cexState1.globalMapping "A").isSome = true ∧
    (windowItems cexTranscript 1).isEmpty = false ∧
    (windowItems cexTranscript 1).all (fun i => i.speaker == "A") = true ∧
    (processWindow cexResolver cexTranscript 1 cexState1).2.extractions = 1 ∧
    (processWindow cexResolver cexTranscript 1 cexState1).2.resolverCalls = 1 := by
  decide

/-- Membership in the insertion-order de-duplication implies membership in
the original list. -/
lemma mem_foldl_dedup (l : List String) (acc : List String) (s : String)
    (h : s ∈ l.foldl (fun acc x => if x ∈ acc then acc else acc ++ [x]) acc) :
    s ∈ acc ∨ s ∈ l := by
  induction l generalizing acc with
  | nil => exact Or.inl h
  | cons x xs ih =>
    rcases ih _ h with h' | h'
    · dsimp only at h'
      by_cases hx : x ∈ acc
      · rw [if_pos hx] at h'
        exact Or.inl h'
      · rw [if_neg hx] at h'
        rcases List.mem_append.mp h' with h'' | h''
        · exact Or.inl h''
        · rcases List.mem_singleton.mp h'' with rfl
          exact Or.inr (List.mem_cons_self _ _)
    · exact Or.inr (List.mem_cons_of_mem _ h')

/-- Every element of `dedupKeepFirst l` is an element of `l`. -/
lemma mem_of_mem_dedupKeepFirst {l : List String} {s : String}
    (h : s ∈ dedupKeepFirst l) : s ∈ l :=
  (mem_foldl_dedup l [] s h).resolve_left (by simp)

/-- C6 amended: a time window in which every occurring speaker code has a
JS-truthy entry in the running global mapping (present and non-empty) is
skipped entirely: no audio extraction, no resolver call, and the state is
unchanged (src/index.ts lines 217-233). -/
theorem processWindow_skip_on_truthy (resolver : Resolver)
    (transcription : List TranscriptionItem) (chunkIdx : ℕ) (st : ResolutionState)
    (h : ∀ item ∈ windowItems transcription chunkIdx,
      jsTruthy (assocGet st.globalMapping item.speaker) = true) :
    processWindow resolver transcription chunkIdx st = (st, ⟨0, 0⟩) := by
  have hu : unknownSpeakersIn transcription chunkIdx st = [] := by
    rw [unknownSpeakersIn, List.filter_eq_nil_iff]
    intro s hs
    obtain ⟨item, hitem, rfl⟩ := List.mem_map.mp (mem_of_mem_dedupKeepFirst hs)
    simp [h item hitem]
  cases hW : (windowItems transcription chunkIdx).isEmpty <;>
    simp [processWindow, hW, hu]

unseal Rat.add Rat.mul Rat.inv in
/-- Evaluation of C6's amended statement: a window whose only code is mapped
to a non-empty name issues nothing and changes nothing. -/
theorem processWindow_skip_on_truthy_witness :
    (∀ item ∈ windowItems [⟨"A", 0, 1, "x"⟩] 0,
      jsTruthy (assocGet (⟨[("A", "Alice")], []⟩ : ResolutionState).globalMapping
        item.speaker) = true) ∧
    processWindow (fun _ _ _ => []) [⟨"A", 0, 1, "x"⟩] 0 ⟨[("A", "Alice")], []⟩
      = (⟨[("A", "Alice")], []⟩, ⟨0, 0⟩) :=
  ⟨by decide,
    processWindow_skip_on_truthy (fun _ _ _ => []) [⟨"A", 0, 1, "x"⟩] 0
      ⟨[("A", "Alice")], []⟩ (by decide)⟩

/-! ## C9 -/

/-- Positional chunk indices (as constructed by the transcription loop,
src/index.ts line 408) are strictly increasing along the list. -/
lemma pairwise_index_of_positional (rs : List ChunkResult)
    (hidx : ∀ i (h : i < rs.length), (rs.get ⟨i, h⟩).index = i) :
    rs.Pairwise (fun a b => a.index < b.index) := by
  rw [List.pairwise_iff_get]
  intro i j hij
  rw [hidx i i.isLt, hidx j j.isLt]
  exact hij

/-- The merged transcript is sorted by start time whenever every chunk item
carries a relative start time in `[0, segmentTime)`, each chunk is sorted by
relative start time, and chunk indices strictly increase. -/
lemma mergeChunkResults_sorted (seg : ℚ) (rs : List ChunkResult)
    (hrel : ∀ r ∈ rs, ∀ item ∈ r.transcription,
      0 ≤ item.startTime ∧ item.startTime < seg)
    (hasc : ∀ r ∈ rs, List.Sorted (· ≤ ·) (r.transcription.map (fun it => it.startTime)))
    (hpair : rs.Pairwise (fun a b => a.index < b.index)) :
    List.Sorted (· ≤ ·) ((mergeChunkResults seg rs).map (fun it => it.startTime)) := by
  induction rs with
  | nil => exact List.sorted_nil
  | cons a as ih =>
    have hpair' := List.pairwise_cons.mp hpair
    rw [mergeChunkResults, List.map_append]
    refine List.pairwise_append.mpr ⟨?_, ?_, ?_⟩
    · -- the head chunk, re-based, stays sorted
      have h0 : List.Pairwise
          (fun a b : TranscriptionItem => a.startTime ≤ b.startTime) a.transcription :=
        List.pairwise_map.mp (hasc a (List.mem_cons_self a as))
      have h2 : List.Pairwise (fun u v : TranscriptionItem =>
          (rebaseItem ((a.index : ℚ) * seg) u).startTime
            ≤ (rebaseItem ((a.index : ℚ) * seg) v).startTime) a.transcription :=
        h0.imp (fun hab => add_le_add_right hab _)
      exact List.pairwise_map.mpr (List.pairwise_map.mpr h2)
    · exact ih (fun r hr => hrel r (List.mem_cons_of_mem a hr))
        (fun r hr => hasc r (List.mem_cons_of_mem a hr)) hpair'.2
    · -- every start of the head chunk precedes every start of later chunks
      intro x hx y hy
      obtain ⟨u, hu, rfl⟩ := List.mem_map.mp hx
      obtain ⟨item, hitem, rfl⟩ := List.mem_map.mp hu
      obtain ⟨w, hw, rfl⟩ := List.mem_map.mp hy
      obtain ⟨r, hr, item2, hitem2, rfl⟩ := mem_mergeChunkResults.mp hw
      have hb1 := hrel a (List.mem_cons_self a as) item hitem
      have hb2 := hrel r (List.mem_cons_of_mem a hr) item2 hitem2
      have hseg : 0 < seg := lt_of_le_of_lt hb1.1 hb1.2
      have hlt : a.index < r.index := hpair'.1 r hr
      have hcast : ((a.index : ℚ) + 1) ≤ (r.index : ℚ) := by
        have : a.index + 1 ≤ r.index := hlt
        exact_mod_cast this
      have hmul : ((a.index : ℚ) + 1) * seg ≤ (r.index : ℚ) * seg :=
        mul_le_mul_of_nonneg_right hcast hseg.le
      show (rebaseItem ((a.index : ℚ) * seg) item).startTime
        ≤ (rebaseItem ((r.index : ℚ) * seg) item2).startTime
      show item.startTime + (a.index : ℚ) * seg ≤ item2.startTime + (r.index : ℚ) * seg
      nlinarith [hb1.2, hb2.1, hmul]

/-- C9: when each chunk's items carry relative start times in
`[0, segmentSeconds)` and are listed in ascending start-time order, the merged
absolute transcript is sorted by start time; the merged order is exactly the
concatenation of the chunks in production order; and the start-time sequence
survives the resolution stage unchanged (src/index.ts lines 398-439 and
353-362). -/
theorem merged_transcript_sorted (seg : ℚ) (m : SpeakerMapping)
    (rs : List ChunkResult)
    (hidx : ∀ i (h : i < rs.length), (rs.get ⟨i, h⟩).index = i)
    (hrel : ∀ r ∈ rs, ∀ item ∈ r.transcription,
      0 ≤ item.startTime ∧ item.startTime < seg)
    (hasc : ∀ r ∈ rs, List.Sorted (· ≤ ·) (r.transcription.map (fun it => it.startTime))) :
    List.Sorted (· ≤ ·) ((mergeChunkResults seg rs).map (fun it => it.startTime)) ∧
    mergeChunkResults seg rs =
      (rs.map (fun r => r.transcription.map (rebaseItem ((r.index : ℚ) * seg)))).flatten ∧
    (applyMapping m (mergeChunkResults seg rs)).map (fun it => it.startTime) =
      (mergeChunkResults seg rs).map (fun it => it.startTime) :=
  ⟨mergeChunkResults_sorted seg rs hrel hasc (pairwise_index_of_positional rs hidx),
    mergeChunkResults_eq_join seg rs,
    applyMapping_map_startTime m (mergeChunkResults seg rs)⟩

/-- Evaluation of C9 on the spec's two-chunk scenario: chunk 0 with two items
and chunk 1 with one item at relative 0-40 s merge into a sorted transcript. -/
theorem merged_transcript_sorted_witness :
    ((∀ i (h : i < ([⟨0, [⟨"SPEAKER_01", 0, 40, "a"⟩, ⟨"SPEAKER_02", 50, 60, "b"⟩]⟩,
          ⟨1, [⟨"SPEAKER_01", 0, 40, "c"⟩]⟩] : List ChunkResult).length),
        (([⟨0, [⟨"SPEAKER_01", 0, 40, "a"⟩, ⟨"SPEAKER_02", 50, 60, "b"⟩]⟩,
          ⟨1, [⟨"SPEAKER_01", 0, 40, "c"⟩]⟩] : List ChunkResult).get ⟨i, h⟩).index = i) ∧
      (∀ r ∈ ([⟨0, [⟨"SPEAKER_01", 0, 40, "a"⟩, ⟨"SPEAKER_02", 50, 60, "b"⟩]⟩,
          ⟨1, [⟨"SPEAKER_01", 0, 40, "c"⟩]⟩] : List ChunkResult),
        ∀ item ∈ r.transcription, 0 ≤ item.startTime ∧ item.startTime < 600) ∧
      (∀ r ∈ ([⟨0, [⟨"SPEAKER_01", 0, 40, "a"⟩, ⟨"SPEAKER_02", 50, 60, "b"⟩]⟩,
          ⟨1, [⟨"SPEAKER_01", 0, 40, "c"⟩]⟩] : List ChunkResult),
        List.Sorted (· ≤ ·) (r.transcription.map (fun it => it.startTime)))) ∧
    (List.Sorted (· ≤ ·)
      ((mergeChunkResults 600
          [⟨0, [⟨"SPEAKER_01", 0, 40, "a"⟩, ⟨"SPEAKER_02", 50, 60, "b"⟩]⟩,
            ⟨1, [⟨"SPEAKER_01", 0, 40, "c"⟩]⟩]).map (fun it => it.startTime)) ∧
      mergeChunkResults 600
          [⟨0, [⟨"SPEAKER_01", 0, 40, "a"⟩, ⟨"SPEAKER_02", 50, 60, "b"⟩]⟩,
            ⟨1, [⟨"SPEAKER_01", 0, 40, "c"⟩]⟩] =
        (([⟨0, [⟨"SPEAKER_01", 0, 40, "a"⟩, ⟨"SPEAKER_02", 50, 60, "b"⟩]⟩,
            ⟨1, [⟨"SPEAKER_01", 0, 40, "c"⟩]⟩] : List ChunkResult).map
          (fun r => r.transcription.map (rebaseItem ((r.index : ℚ) * 600)))).flatten ∧
      (applyMapping [("SPEAKER_01", "Alice"), ("SPEAKER_02", "Bob")]
          (mergeChunkResults 600
            [⟨0, [⟨"SPEAKER_01", 0, 40, "a"⟩, ⟨"SPEAKER_02", 50, 60, "b"⟩]⟩,
              ⟨1, [⟨"SPEAKER_01", 0, 40, "c"⟩]⟩])).map (fun it => it.startTime) =
        (mergeChunkResults 600
          [⟨0, [⟨"SPEAKER_01", 0, 40, "a"⟩, ⟨"SPEAKER_02", 50, 60, "b"⟩]⟩,
            ⟨1, [⟨"SPEAKER_01", 0, 40, "c"⟩]⟩]).map (fun it => it.startTime)) :=
  ⟨⟨by decide, by decide, by decide⟩,
    merged_transcript_sorted 600 [("SPEAKER_01", "Alice"), ("SPEAKER_02", "Bob")]
      [⟨0, [⟨"SPEAKER_01", 0, 40, "a"⟩, ⟨"SPEAKER_02", 50, 60, "b"⟩]⟩,
        ⟨1, [⟨"SPEAKER_01", 0, 40, "c"⟩]⟩]
      (by decide) (by decide) (by decide)⟩

/-! ## C10 -/

/-- C10: on an empty accumulated transcription, `identifySpeakersWithAudio`
is a no-op at its interface: `maxTime` falls back to 0, so zero windows are
computed, no extraction and no resolver call is issued, the global mapping
and the confirmed-sample table stay empty, and the returned aggregate equals
the input with title, slug and summary unchanged
(src/index.ts lines 203-217 and 353-362). -/
theorem identifySpeakersWithAudio_empty_noop (resolver : Resolver)
    (title slug summary : String) :
    identifySpeakersWithAudio resolver ⟨title, slug, [], summary⟩ =
      (⟨title, slug, [], summary⟩, ⟨[], []⟩, ⟨0, 0⟩) := by
  have hchunks : (Int.ceil ((0 : ℚ) / identificationChunkTime)).toNat = 0 := by
    norm_num
  simp [identifySpeakersWithAudio, hchunks, runWindows, applyMapping]

/-! ## C7 -/

/-- C7: the slug returned by the external service is used verbatim as the
artifact slug and output file name, with no normalization anywhere
(src/index.ts lines 468-511, 531-538 and 652-655): a service slug violating
the lowercase-digits-hyphens contract reaches the persisted artifact and the
file name unchanged. -/
theorem slug_passthrough_at_invalid_slug :
    isValidSlug "Bad Slug!" = false ∧
    (generateTitleAndSummary ⟨"t", "Bad Slug!", "s"⟩ ⟨"", "", [], ""⟩).slug
      = "Bad Slug!" ∧
    (processTranscription (generateTitleAndSummary ⟨"t", "Bad Slug!", "s"⟩ ⟨"", "", [], ""⟩)
        "meeting" "2026-02-03").info.slug = "Bad Slug!" ∧
    artifactFileName
        (processTranscription
          (generateTitleAndSummary ⟨"t", "Bad Slug!", "s"⟩ ⟨"", "", [], ""⟩)
          "meeting" "2026-02-03").info.slug = "Bad Slug!.json" ∧
    isValidSlug
        (processTranscription
          (generateTitleAndSummary ⟨"t", "Bad Slug!", "s"⟩ ⟨"", "", [], ""⟩)
          "meeting" "2026-02-03").info.slug = false := by
  refine ⟨by decide, rfl, rfl, rfl, by decide⟩

end TransPal
